import Mathlib

/-!
Verification development for the inventory/point-of-sale backend
(`src/backend/server.js`).

The JavaScript handlers are shallowly embedded as pure Lean functions.
JavaScript numbers are modelled as exact rationals (`ℚ`); the value `NaN`,
which arises in the source from `parseInt` on a non-numeric string and then
propagates through arithmetic, is modelled by `none` in `Option ℚ` /
`Option ℤ` (JS comparisons involving `NaN` are false, and JS arithmetic on
`NaN` yields `NaN`, which the `js*` helpers below reproduce).  The CouchDB
collections are modelled as lists of documents keyed by `id`; `insert` of a
fetched document is modelled as replacement by key.
-/

namespace PosBackend

/-- A product document in the `products` collection (`server.js`: created at
`POST /api/products`, mutated by `PUT /api/products/:id` and `POST /api/sales`).
`stock` is `Option ℚ` so that the `NaN` produced by `productDoc.stock -= quantity`
with a `NaN` quantity is representable (`none` = `NaN`). -/
structure Product where
  id : String
  name : String
  description : String
  price : ℚ
  stock : Option ℚ
  photoBase64 : Option String
deriving Repr, DecidableEq

/-- The state of the `products` database. -/
abbrev Store := List Product

/-- `productsDb.get(id)`: first document whose `_id` matches; `none` models the
thrown not-found error. -/
def getProduct (store : Store) (pid : String) : Option Product :=
  store.find? (fun p => p.id == pid)

/-- `productsDb.insert(doc)` for a fetched document: replace the document with
the same `_id` (CouchDB keeps one document per id). -/
def putProduct : Store → Product → Store
  | [], p => [p]
  | q :: rest, p => if q.id == p.id then p :: rest else q :: putProduct rest p

/-- The `quantity` field of a request line as it arrives in the JSON body:
absent (`undefined`), a JSON integer, or a non-numeric value on which
`parseInt` returns `NaN`. -/
inductive QtyInput
  | undef
  | int (n : ℤ)
  | nonNumeric
deriving Repr, DecidableEq

/-- `parseInt(item.quantity || 1)` from `POST /api/sales` (server.js:438):
`undefined` and `0` are falsy, so both coerce to `1`; any other integer is
kept; a non-numeric value parses to `NaN` (`none`). -/
def parseQty : QtyInput → Option ℤ
  | .undef => some 1
  | .int n => if n = 0 then some 1 else some n
  | .nonNumeric => none

/-- The check `if (quantity <= 0)` (server.js:439).  In JS, `NaN <= 0` is
`false`, so a `NaN` quantity is NOT rejected. -/
def qtyRejected : Option ℤ → Bool
  | some n => n ≤ 0
  | none => false

/-- JS `stock < quantity` (server.js:442); any comparison with `NaN` is false. -/
def jsLtQ : Option ℚ → Option ℤ → Bool
  | some s, some n => s < (n : ℚ)
  | _, _ => false

/-- JS `price * quantity` (server.js:446); `NaN` propagates. -/
def jsMulPrice : ℚ → Option ℤ → Option ℚ
  | p, some n => some (p * (n : ℚ))
  | _, none => none

/-- JS `total += itemTotal` (server.js:454); `NaN` propagates. -/
def jsAdd : Option ℚ → Option ℚ → Option ℚ
  | some a, some b => some (a + b)
  | _, _ => none

/-- JS `stock -= quantity` (server.js:457); `NaN` propagates. -/
def jsSubQ : Option ℚ → Option ℤ → Option ℚ
  | some s, some n => some (s - (n : ℚ))
  | _, _ => none

/-- One requested line of a sale: `{ productId, quantity }`. -/
structure ReqItem where
  productId : String
  quantity : QtyInput
deriving Repr, DecidableEq

/-- One stored line item of a sale document (server.js:447-453). -/
structure SaleLine where
  productId : String
  productName : String
  quantity : Option ℤ
  unitPrice : ℚ
  total : Option ℚ
deriving Repr, DecidableEq

/-- The persisted sale document (server.js:463-470), minus the generated id
and timestamp. -/
structure SaleDoc where
  customerId : String
  customerName : String
  items : List SaleLine
  total : Option ℚ
deriving Repr, DecidableEq

/-- The failure taxonomy of the per-line loop of `POST /api/sales`:
`Cantidad inválida` (server.js:439), the thrown not-found from
`productsDb.get` (server.js:441), and `Stock insuficiente` (server.js:443). -/
inductive SaleErr
  | invalidQty
  | notFound
  | insufficient (productName : String)
deriving Repr, DecidableEq

/-- The result of `POST /api/sales`.  Every constructor carries the state of
the products database at the moment the response is sent, so that the
persistence (or not) of per-line stock writes is observable. -/
inductive SaleResult
  | ok (sale : SaleDoc) (store : Store)
  | errEmptyItems (store : Store)
  | errInvalidQty (store : Store)
  | errNotFound (store : Store)
  | errInsufficient (productName : String) (store : Store)
deriving Repr, DecidableEq

/-- The products-database state carried by a `SaleResult`. -/
def SaleResult.store : SaleResult → Store
  | .ok _ s => s
  | .errEmptyItems s => s
  | .errInvalidQty s => s
  | .errNotFound s => s
  | .errInsufficient _ s => s

/-- Whether a `SaleResult` is the success response (HTTP 201 with a persisted
sale). -/
def SaleResult.isOk : SaleResult → Bool
  | .ok _ _ => true
  | _ => false

/-- The body of one iteration of the `for (const item of items)` loop of
`POST /api/sales` (server.js:436-459), after the quantity has been parsed:
reject `quantity <= 0`, fetch the product, reject insufficient stock, then
compute the line item and write the decremented stock back to the products
database. -/
def processLineQ (store : Store) (pid : String) (q : Option ℤ) :
    SaleErr ⊕ (Store × SaleLine) :=
  if qtyRejected q then .inl .invalidQty
  else
    match getProduct store pid with
    | none => .inl .notFound
    | some prod =>
      if jsLtQ prod.stock q then .inl (.insufficient prod.name)
      else
        .inr (putProduct store { prod with stock := jsSubQ prod.stock q },
              ⟨prod.id, prod.name, q, prod.price, jsMulPrice prod.price q⟩)

/-- One iteration of the `for (const item of items)` loop of `POST /api/sales`
(server.js:436-459): parse the quantity once, then run the checks and the
stock write. -/
def processLine (store : Store) (item : ReqItem) : SaleErr ⊕ (Store × SaleLine) :=
  processLineQ store item.productId (parseQty item.quantity)

/-- The whole loop: lines are processed strictly in request order, each
successful line committing its stock write before the next line is read; the
first failing line aborts with the store as already mutated by the earlier
lines. -/
def processItems : Store → List ReqItem → List SaleLine → Option ℚ →
    (SaleErr × Store) ⊕ (Store × List SaleLine × Option ℚ)
  | store, [], acc, tot => .inr (store, acc, tot)
  | store, item :: rest, acc, tot =>
    match processLine store item with
    | .inl e => .inl (e, store)
    | .inr (store2, line) =>
      processItems store2 rest (acc ++ [line]) (jsAdd tot line.total)

/-- The products-database state carried by the result of the per-line loop,
whether it aborted or ran to completion. -/
def loopStore : (SaleErr × Store) ⊕ (Store × List SaleLine × Option ℚ) → Store
  | .inl (_, s) => s
  | .inr (s, _, _) => s

/-- JS `x || d` for an optional string field (absent and the empty string are
falsy), as in `customerId` defaulting to `guest` and `customerName` to `Cliente Anónimo`
(server.js:465-466). -/
def orDefault : Option String → String → String
  | some s, d => if s = "" then d else s
  | none, d => d

/-- Map a loop failure to the HTTP response, carrying the store state at the
moment of failure. -/
def errOf : SaleErr → Store → SaleResult
  | .invalidQty, s => .errInvalidQty s
  | .notFound, s => .errNotFound s
  | .insufficient n, s => .errInsufficient n s

/-- `POST /api/sales` (server.js:424-482): reject an empty line list, run the
per-line loop, and on success build the sale document with the defaulted
customer fields and the accumulated grand total. -/
def createSale (store : Store) (customerId customerName : Option String)
    (items : List ReqItem) : SaleResult :=
  if items.isEmpty then .errEmptyItems store
  else
    match processItems store items [] (some 0) with
    | .inl (e, s) => errOf e s
    | .inr (s, lines, total) =>
      .ok { customerId := orDefault customerId "guest",
            customerName := orDefault customerName "Cliente Anónimo",
            items := lines,
            total := total } s

/-- Run `processLine` over successive lines, succeeding only if every line
succeeds; used to describe the store state after a successful run of the
lines before a failing one. -/
def applyLines : Store → List ReqItem → Option Store
  | store, [] => some store
  | store, i :: rest =>
    match processLine store i with
    | .inl _ => none
    | .inr (s2, _) => applyLines s2 rest

/-- The grand total as the source accumulates it: a left fold of JS addition
over the line totals starting from `0` (server.js:434,454). -/
def sumLineTotals (ls : List SaleLine) : Option ℚ :=
  ls.foldl (fun a l => jsAdd a l.total) (some 0)

/-! ## Product create and update (`sanitizeProductInput`, `PUT /api/products/:id`) -/

/-- The validated product fields returned by `sanitizeProductInput`. -/
structure ProductFields where
  name : String
  description : String
  price : ℚ
  stock : ℤ
deriving Repr, DecidableEq

/-- JS `String.prototype.trim()`: strip leading and trailing whitespace
(structurally recursive so that it evaluates on literals). -/
def jsTrim (s : String) : String :=
  ⟨((s.data.dropWhile Char.isWhitespace).reverse.dropWhile Char.isWhitespace).reverse⟩

/-- `sanitizeProductInput` (server.js:87-97).  `priceVal` is the result of
`Number(body.price || 0)` and `stockVal` the result of
`parseInt(body.stock || 0)` (`none` = `NaN`; an absent field arrives here as
`some 0`).  The name is trimmed and required; a `NaN` or negative price or
stock is rejected. -/
def sanitizeProductInput (name description : String)
    (priceVal : Option ℚ) (stockVal : Option ℤ) : Except String ProductFields :=
  if jsTrim name = "" then .error "Nombre es requerido"
  else
    match priceVal with
    | none => .error "Precio inválido"
    | some p =>
      if p < 0 then .error "Precio inválido"
      else
        match stockVal with
        | none => .error "Stock inválido"
        | some s =>
          if s < 0 then .error "Stock inválido"
          else .ok ⟨jsTrim name, jsTrim description, p, s⟩

/-- The document update of `PUT /api/products/:id` (server.js:315-344): each
field present in the body overwrites the document field, with `price` passed
through `Number(...)` and `stock` through `parseInt(...)` and NO range
validation.  `priceVal`/`stockVal` are the parsed values of the fields when
present (`none` = field absent from the body; the photo fields are not
modelled here). -/
def updateProduct (doc : Product) (nameVal descVal : Option String)
    (priceVal : Option ℚ) (stockVal : Option ℤ) : Product :=
  { doc with
    name := nameVal.getD doc.name,
    description := descVal.getD doc.description,
    price := priceVal.getD doc.price,
    stock := match stockVal with
      | some s => some (s : ℚ)
      | none => doc.stock }

/-- The invariant claimed for the products collection: every present,
non-`NaN` stock value is non-negative and every price is non-negative. -/
def NonNegStore (store : Store) : Prop :=
  ∀ p ∈ store, 0 ≤ p.price ∧ ∀ s : ℚ, p.stock = some s → 0 ≤ s

/-! ## Users: login (`POST /api/auth/login`) and password reset -/

/-- A user document in the `users` collection. -/
structure User where
  id : String
  email : String
  name : String
  passwordHash : String
  resetToken : Option String
  resetExpires : Option ℤ
deriving Repr, DecidableEq

/-- The state of the `users` database. -/
abbrev Users := List User

/-- `findUserByEmail` (server.js:99-107): Mango query with
`selector = { email }, limit 1` — the first document with that email. -/
def findUserByEmail (users : Users) (email : String) : Option User :=
  users.find? (fun u => u.email == email)

/-- `usersDb.insert(user)` for a fetched document: replace the document with
the same `_id`. -/
def putUser (users : Users) (u : User) : Users :=
  users.map (fun v => if v.id == u.id then u else v)

/-- The user document as mutated by `POST /api/auth/request-reset`
(server.js:165-166): `user.resetToken = token; user.resetExpires = expiresAt`. -/
def withResetToken (u : User) (token : String) (expiresAt : ℤ) : User :=
  { u with resetToken := some token, resetExpires := some expiresAt }

/-- The user document as mutated by a successful `POST /api/auth/reset-password`
(server.js:203-205): new hash, `delete user.resetToken`,
`delete user.resetExpires`. -/
def withNewPassword (u : User) (newHash : String) : User :=
  { u with passwordHash := newHash, resetToken := none, resetExpires := none }

/-- The response of `POST /api/auth/login` (server.js:137-152): either a
signed token payload (user id, email, name) with HTTP 200, or an error status
and message. -/
inductive LoginResult
  | ok (id email name : String)
  | err (status : ℕ) (message : String)
deriving Repr, DecidableEq

/-- `POST /api/auth/login` (server.js:137-152).  `verify` stands for
`bcrypt.compare(password, user.passwordHash)`.  An unknown email and a
failed password comparison both answer 400 `Credenciales inválidas`. -/
def login (verify : String → String → Bool) (users : Users)
    (email password : String) : LoginResult :=
  match findUserByEmail users email with
  | none => .err 400 "Credenciales inválidas"
  | some u =>
    if verify password u.passwordHash then .ok u.id u.email u.name
    else .err 400 "Credenciales inválidas"

/-- The response of `POST /api/auth/request-reset` (server.js:155-190),
ignoring the mail-transport branch (it only changes the response body, not
the stored state). -/
inductive RequestResetResult
  | okIssued
  | errNoEmail
  | errUserNotFound
deriving Repr, DecidableEq

/-- `POST /api/auth/request-reset` (server.js:155-190): require a non-falsy
email, find the user, store a fresh reset token with
`resetExpires = now + 1000*60*60` and save the document.  `token` stands for
the generated `uuidv4()` and `now` for `Date.now()` (milliseconds). -/
def requestReset (token : String) (now : ℤ) (users : Users)
    (email : String) : RequestResetResult × Users :=
  if email = "" then (.errNoEmail, users)
  else
    match findUserByEmail users email with
    | none => (.errUserNotFound, users)
    | some u => (.okIssued, putUser users (withResetToken u token (now + 3600000)))

/-- The response of `POST /api/auth/reset-password` (server.js:193-213). -/
inductive ResetResult
  | ok
  | errMissingFields
  | errUserNotFound
  | errInvalidToken
  | errExpired
deriving Repr, DecidableEq

/-- `POST /api/auth/reset-password` (server.js:193-213): require the three
body fields (falsy = absent or empty string), find the user, check
`!user.resetToken || user.resetToken !== token` (invalid) and
`!user.resetExpires || Date.now() > user.resetExpires` (expired; a stored
expiry of `0` is falsy, hence expired), then store the new hash and delete
the token and expiry.  `hash` stands for `bcrypt.hash(newPassword, 10)`. -/
def resetPassword (hash : String → String) (now : ℤ) (users : Users)
    (email token newPassword : String) : ResetResult × Users :=
  if email = "" ∨ token = "" ∨ newPassword = "" then (.errMissingFields, users)
  else
    match findUserByEmail users email with
    | none => (.errUserNotFound, users)
    | some u =>
      match u.resetToken with
      | none => (.errInvalidToken, users)
      | some rt =>
        if rt = "" ∨ rt ≠ token then (.errInvalidToken, users)
        else
          match u.resetExpires with
          | none => (.errExpired, users)
          | some exp =>
            if exp = 0 ∨ now > exp then (.errExpired, users)
            else (.ok, putUser users (withNewPassword u (hash newPassword)))

/-! ## Invoice rendering (`GET /api/sales/:id/invoice`) -/

/-- One rendered line of the invoice PDF (server.js:540-578): the text comes
entirely from the denormalized sale line; the product lookup is attempted
only for the image and its failure is swallowed by the inner try/catch. -/
structure InvoiceLine where
  name : String
  quantity : Option ℤ
  unitPrice : ℚ
  total : Option ℚ
  hasImage : Bool
deriving Repr, DecidableEq

/-- Rendering of one sale item in the invoice loop (server.js:540-569):
`productsDb.get(item.productId)` is tried for the photo; a missing product
(or a product without a photo) just means no image, and the name, quantity,
unit price and subtotal printed are the denormalized fields of the sale line. -/
def renderInvoiceLine (store : Store) (item : SaleLine) : InvoiceLine :=
  let img :=
    match getProduct store item.productId with
    | some p => p.photoBase64.isSome
    | none => false
  ⟨item.productName, item.quantity, item.unitPrice, item.total, img⟩

/-- The invoice body for a sale: every sale item is rendered, in order. -/
def renderInvoice (store : Store) (sale : SaleDoc) : List InvoiceLine :=
  sale.items.map (renderInvoiceLine store)

/-! ## Concrete sample data (used to instantiate the theorems) -/

/-- A two-product catalog: `p1` with price 10 and stock 5, `p2` with price 3
and stock 1. -/
def sampleStore : Store :=
  [⟨"p1", "Uno", "", 10, some 5, none⟩, ⟨"p2", "Dos", "", 3, some 1, none⟩]

/-- `sampleStore` after a successful sale line of 2 units of `p1`. -/
def sampleStoreAfterP1 : Store :=
  [⟨"p1", "Uno", "", 10, some 3, none⟩, ⟨"p2", "Dos", "", 3, some 1, none⟩]

/-- A registered user with no pending reset token. -/
def sampleUser : User :=
  ⟨"user:1", "ana@example.com", "Ana", "hash0", none, none⟩

/-- A historical sale referencing a product id that no longer exists in the
catalog, with the product name denormalized at sale time. -/
def sampleSaleVanished : SaleDoc :=
  ⟨"guest", "Cliente Anónimo", [⟨"pGone", "Descontinuado", some 2, 7, some 14⟩], some 14⟩

/-! ## Helper lemmas about the store operations -/

theorem getProduct_mem {store : Store} {pid : String} {p : Product}
    (h : getProduct store pid = some p) : p ∈ store :=
  List.mem_of_find?_eq_some h

theorem getProduct_id {store : Store} {pid : String} {p : Product}
    (h : getProduct store pid = some p) : p.id = pid := by
  have h2 := List.find?_some h
  simpa using h2

theorem getProduct_putProduct_self {store : Store} {pid : String} {prod p2 : Product}
    (h : getProduct store pid = some prod) (hid : p2.id = prod.id) :
    getProduct (putProduct store p2) pid = some p2 := by
  have hpid : prod.id = pid := getProduct_id h
  have hp2 : p2.id = pid := hid.trans hpid
  induction store with
  | nil => simp [getProduct] at h
  | cons q rest ih =>
    by_cases hq : q.id = pid
    · have hfind : getProduct (q :: rest) pid = some q :=
        List.find?_cons_of_pos _ (by simp [hq])
      rw [putProduct, if_pos (by simp [hq, hp2])]
      exact List.find?_cons_of_pos _ (by simp [hp2])
    · have hstep : getProduct (q :: rest) pid = getProduct rest pid :=
        List.find?_cons_of_neg _ (by simp [hq])
      rw [hstep] at h
      rw [putProduct, if_neg (by simp [hq, hp2])]
      have hrec := ih h
      calc getProduct (q :: putProduct rest p2) pid
      _ = getProduct (putProduct rest p2) pid := List.find?_cons_of_neg _ (by simp [hq])
      _ = some p2 := hrec

theorem mem_putProduct {store : Store} {p q : Product}
    (h : q ∈ putProduct store p) : q = p ∨ q ∈ store := by
  induction store with
  | nil =>
    simp [putProduct] at h
    exact .inl h
  | cons r rest ih =>
    rw [putProduct] at h
    by_cases hr : r.id = p.id
    · rw [if_pos (by simp [hr])] at h
      rcases List.mem_cons.mp h with h | h
      · exact .inl h
      · exact .inr (List.mem_cons_of_mem _ h)
    · rw [if_neg (by simp [hr])] at h
      rcases List.mem_cons.mp h with h | h
      · exact .inr (h ▸ List.mem_cons_self _ _)
      · rcases ih h with h | h
        · exact .inl h
        · exact .inr (List.mem_cons_of_mem _ h)

theorem processLineQ_inr {store : Store} {pid : String} {q : Option ℤ}
    {s2 : Store} {line : SaleLine}
    (h : processLineQ store pid q = Sum.inr (s2, line)) :
    ∃ prod, qtyRejected q = false ∧
      getProduct store pid = some prod ∧
      jsLtQ prod.stock q = false ∧
      s2 = putProduct store { prod with stock := jsSubQ prod.stock q } ∧
      line = ⟨prod.id, prod.name, q, prod.price, jsMulPrice prod.price q⟩ := by
  unfold processLineQ at h
  split at h
  · simp at h
  · rename_i hrej
    split at h
    · simp at h
    · rename_i prod hget
      split at h
      · simp at h
      · rename_i hlt
        cases h
        exact ⟨prod, by simpa using hrej, hget, by simpa using hlt, rfl, rfl⟩

theorem processLine_inr {store : Store} {item : ReqItem} {s2 : Store} {line : SaleLine}
    (h : processLine store item = Sum.inr (s2, line)) :
    ∃ prod, qtyRejected (parseQty item.quantity) = false ∧
      getProduct store item.productId = some prod ∧
      jsLtQ prod.stock (parseQty item.quantity) = false ∧
      s2 = putProduct store
            { prod with stock := jsSubQ prod.stock (parseQty item.quantity) } ∧
      line = ⟨prod.id, prod.name, parseQty item.quantity, prod.price,
              jsMulPrice prod.price (parseQty item.quantity)⟩ :=
  processLineQ_inr h

theorem parseQty_some_of_numeric {q : QtyInput} (h : q ≠ QtyInput.nonNumeric) :
    ∃ n : ℤ, parseQty q = some n := by
  cases q with
  | undef => exact ⟨1, rfl⟩
  | int n =>
    by_cases hn : n = 0
    · exact ⟨1, by simp [parseQty, hn]⟩
    · exact ⟨n, by simp [parseQty, hn]⟩
  | nonNumeric => exact absurd rfl h

theorem qtyRejected_false_pos {n : ℤ} (h : qtyRejected (some n) = false) : 0 < n := by
  simp [qtyRejected] at h
  omega

theorem processItems_append_fail (pre : List ReqItem) :
    ∀ (store s1 : Store) (acc : List SaleLine) (tot : Option ℚ)
      (item : ReqItem) (post : List ReqItem) (e : SaleErr),
      applyLines store pre = some s1 → processLine s1 item = Sum.inl e →
      processItems store (pre ++ item :: post) acc tot = Sum.inl (e, s1) := by
  induction pre with
  | nil =>
    intro store s1 acc tot item post e hpre hfail
    simp only [applyLines, Option.some_inj] at hpre
    subst hpre
    simp [processItems, hfail]
  | cons i pre ih =>
    intro store s1 acc tot item post e hpre hfail
    simp only [applyLines] at hpre
    cases hpl : processLine store i with
    | inl e2 => rw [hpl] at hpre; simp at hpre
    | inr pr =>
      obtain ⟨s2, line⟩ := pr
      rw [hpl] at hpre
      simp only [List.cons_append, processItems, hpl]
      exact ih s2 s1 _ _ item post e hpre hfail

/-- C1: if every line before line N succeeds and line N fails (invalid
quantity, missing product, or insufficient stock), then `POST /api/sales`
answers the corresponding error response: no sale document is created
(`isOk = false`), and the products database in effect at the response is
exactly the one left by the successful lines 1..N-1 — their stock decrements
are already persisted and are not rolled back. -/
theorem sale_fail_keeps_earlier_decrements
    (store : Store) (cid cname : Option String)
    (pre : List ReqItem) (item : ReqItem) (post : List ReqItem)
    (s1 : Store) (e : SaleErr)
    (hpre : applyLines store pre = some s1)
    (hfail : processLine s1 item = Sum.inl e) :
    createSale store cid cname (pre ++ item :: post) = errOf e s1 ∧
    (errOf e s1).isOk = false ∧ (errOf e s1).store = s1 := by
  refine ⟨?_, by cases e <;> rfl, by cases e <;> rfl⟩
  have hne : (pre ++ item :: post).isEmpty = false := by cases pre <;> rfl
  have hrun := processItems_append_fail pre store s1 [] (some 0) item post e hpre hfail
  simp [createSale, hne, hrun]

/-- Witness for C1: on the catalog `sampleStore`, the request
`[{p1, qty 2}, {p2, qty 100}]` fails with `Stock insuficiente` for `Dos`
while the stock of `p1` stays decremented from 5 to 3. -/
theorem sale_fail_keeps_earlier_decrements_witness :
    createSale sampleStore none none
        [⟨"p1", QtyInput.int 2⟩, ⟨"p2", QtyInput.int 100⟩] =
      errOf (SaleErr.insufficient "Dos") sampleStoreAfterP1 ∧
    (errOf (SaleErr.insufficient "Dos") sampleStoreAfterP1).isOk = false ∧
    (errOf (SaleErr.insufficient "Dos") sampleStoreAfterP1).store = sampleStoreAfterP1 :=
  sale_fail_keeps_earlier_decrements sampleStore none none
    [⟨"p1", QtyInput.int 2⟩] ⟨"p2", QtyInput.int 100⟩ [] sampleStoreAfterP1
    (SaleErr.insufficient "Dos")
    (by norm_num [applyLines, processLine, processLineQ, parseQty, qtyRejected,
      getProduct, putProduct, jsLtQ, jsSubQ, jsMulPrice, sampleStore, sampleStoreAfterP1,
      List.find?_cons_of_neg, List.find?_cons_of_pos])
    (by norm_num [processLine, processLineQ, parseQty, qtyRejected, getProduct,
      jsLtQ, sampleStoreAfterP1, List.find?_cons_of_neg, List.find?_cons_of_pos]
      <;> decide)

/-- C2 (amended): for a sale line whose requested quantity is a nonzero
integer `n` and that succeeds, the stock written back for the product is its
previous stock minus `n`, and the persisted line records quantity `n`. -/
theorem sale_line_decrements_stock
    (store : Store) (item : ReqItem) (n : ℤ)
    (prod : Product) (s : ℚ) (s2 : Store) (line : SaleLine)
    (hq : item.quantity = QtyInput.int n) (hn : n ≠ 0)
    (hget : getProduct store item.productId = some prod)
    (hstock : prod.stock = some s)
    (hok : processLine store item = Sum.inr (s2, line)) :
    line.quantity = some n ∧
    getProduct s2 item.productId = some { prod with stock := some (s - (n : ℚ)) } := by
  obtain ⟨prod2, hrej, hget2, hlt, hs2, hline⟩ := processLine_inr hok
  rw [hget] at hget2
  obtain rfl : prod = prod2 := Option.some_inj.mp hget2
  have hpq : parseQty item.quantity = some n := by simp [hq, parseQty, hn]
  rw [hpq] at hs2 hline
  constructor
  · rw [hline]
  · rw [hs2, hstock]
    exact getProduct_putProduct_self hget rfl

/-- Witness for C2: selling 2 units of `p1` (price 10, stock 5) records
quantity 2 and persists stock 3. -/
theorem sale_line_decrements_stock_witness :
    (⟨"p1", "Uno", some 2, 10, some 20⟩ : SaleLine).quantity = some (2 : ℤ) ∧
    getProduct sampleStoreAfterP1 "p1" =
      some ⟨"p1", "Uno", "", 10, some ((5 : ℚ) - ((2 : ℤ) : ℚ)), none⟩ :=
  sale_line_decrements_stock sampleStore ⟨"p1", QtyInput.int 2⟩ 2
    ⟨"p1", "Uno", "", 10, some 5, none⟩ 5 sampleStoreAfterP1
    ⟨"p1", "Uno", some 2, 10, some 20⟩ rfl (by decide) rfl rfl
    (by norm_num [processLine, processLineQ, parseQty, qtyRejected, getProduct,
      putProduct, jsLtQ, jsSubQ, jsMulPrice, sampleStore, sampleStoreAfterP1,
      List.find?_cons_of_neg, List.find?_cons_of_pos])

/-- C2 counterexample: a line with requested quantity `0` is coerced to `1` by
`parseInt(item.quantity || 1)` (0 is falsy), so the sale succeeds and the
persisted stock is 4, not `5 - 0`. -/
theorem sale_line_zero_qty_counterexample :
    (createSale sampleStore none none [⟨"p1", QtyInput.int 0⟩]).isOk = true ∧
    getProduct (createSale sampleStore none none [⟨"p1", QtyInput.int 0⟩]).store "p1" =
      some ⟨"p1", "Uno", "", 10, some 4, none⟩ ∧
    ¬ ((4 : ℚ) = 5 - 0) := by
  refine ⟨?_, ?_, by norm_num⟩ <;>
  norm_num [createSale, processItems, processLine, processLineQ, parseQty, qtyRejected,
    getProduct, putProduct, jsLtQ, jsSubQ, jsMulPrice, jsAdd, orDefault,
    SaleResult.isOk, SaleResult.store, sampleStore,
    List.find?_cons_of_neg, List.find?_cons_of_pos]

theorem processItems_inr_spec :
    ∀ (items : List ReqItem) (store : Store) (acc : List SaleLine) (tot : Option ℚ)
      (s : Store) (lines : List SaleLine) (total : Option ℚ),
      processItems store items acc tot = Sum.inr (s, lines, total) →
      ∃ rest, lines = acc ++ rest ∧
        total = rest.foldl (fun a l => jsAdd a l.total) tot ∧
        ∀ l ∈ rest, l.total = jsMulPrice l.unitPrice l.quantity := by
  intro items
  induction items with
  | nil =>
    intro store acc tot s lines total h
    simp only [processItems, Sum.inr.injEq, Prod.mk.injEq] at h
    exact ⟨[], by simp [h.2.1.symm], by simp [h.2.2.symm], by simp⟩
  | cons it items ih =>
    intro store acc tot s lines total h
    simp only [processItems] at h
    cases hpl : processLine store it with
    | inl e => rw [hpl] at h; simp at h
    | inr pr =>
      obtain ⟨s2, line⟩ := pr
      rw [hpl] at h
      obtain ⟨rest, hlines, htotal, hmul⟩ :=
        ih s2 (acc ++ [line]) (jsAdd tot line.total) s lines total h
      refine ⟨line :: rest, ?_, ?_, ?_⟩
      · rw [hlines, List.append_assoc]
        rfl
      · rw [htotal]
        rfl
      · intro l hl
        rcases List.mem_cons.mp hl with rfl | hl
        · obtain ⟨prod, _, _, _, _, hline⟩ := processLine_inr hpl
          rw [hline]
        · exact hmul l hl

/-- C3: for every sale request accepted by `POST /api/sales`, each persisted
line records `total` equal to the JS product `unitPrice * quantity`, and the
persisted sale records `total` exactly the left-to-right accumulation of the line totals
(arithmetic is modelled exactly over `ℚ`; both equalities are between the
very values the handler computes, in the order it computes them). -/
theorem sale_total_is_sum_of_line_totals
    (store : Store) (cid cname : Option String) (items : List ReqItem)
    (sale : SaleDoc) (s2 : Store)
    (hok : createSale store cid cname items = SaleResult.ok sale s2) :
    sale.total = sumLineTotals sale.items ∧
    ∀ l ∈ sale.items, l.total = jsMulPrice l.unitPrice l.quantity := by
  rw [createSale] at hok
  by_cases hne : items.isEmpty
  · simp [hne] at hok
  · rw [if_neg (by simp [hne])] at hok
    cases hrun : processItems store items [] (some 0) with
    | inl pr =>
      obtain ⟨e, s⟩ := pr
      rw [hrun] at hok
      cases e <;> simp [errOf] at hok
    | inr tr =>
      obtain ⟨s, lines, total⟩ := tr
      rw [hrun] at hok
      cases hok
      obtain ⟨rest, hlines, htotal, hmul⟩ :=
        processItems_inr_spec items store [] (some 0) _ _ _ hrun
      simp only [List.nil_append] at hlines
      subst hlines
      exact ⟨htotal, hmul⟩

/-- Witness for C3: the one-line sale of 2 units of `p1` at price 10 records
total 20, the accumulation of its line totals. -/
theorem sale_total_witness :
    (some (20 : ℚ) : Option ℚ) =
      sumLineTotals [⟨"p1", "Uno", some 2, 10, some 20⟩] :=
  (sale_total_is_sum_of_line_totals sampleStore none none [⟨"p1", QtyInput.int 2⟩]
    ⟨"guest", "Cliente Anónimo", [⟨"p1", "Uno", some 2, 10, some 20⟩], some 20⟩
    sampleStoreAfterP1
    (by norm_num [createSale, processItems, processLine, processLineQ, parseQty,
      qtyRejected, getProduct, putProduct, jsLtQ, jsSubQ, jsMulPrice, jsAdd,
      orDefault, sampleStore, sampleStoreAfterP1,
      List.find?_cons_of_neg, List.find?_cons_of_pos])).1

/-- C4 (amended): a sale request whose FIRST line has a negative integer
quantity is rejected with the validation error `Cantidad inválida` before any
document access, leaving the products database untouched.  (The source checks
`parseInt(item.quantity || 1) <= 0` per line inside the loop, so this holds
only for the first line; `0` and absent quantities are coerced to `1` and
accepted, and a non-numeric quantity parses to `NaN`, which the `<= 0` check
does not reject.) -/
theorem negative_qty_first_line_rejected
    (store : Store) (cid cname : Option String) (pid : String) (n : ℤ)
    (rest : List ReqItem) (hn : n < 0) :
    createSale store cid cname (⟨pid, QtyInput.int n⟩ :: rest) =
      SaleResult.errInvalidQty store := by
  have h1 : parseQty (QtyInput.int n) = some n := by
    simp [parseQty, hn.ne]
  have h2 : qtyRejected (some n) = true := by
    simp [qtyRejected]
    omega
  simp [createSale, processItems, processLine, processLineQ, h1, h2, errOf]

/-- Witness for C4 (amended): quantity `-1` on the first line is rejected with
the store untouched. -/
theorem negative_qty_first_line_rejected_witness :
    createSale sampleStore none none [⟨"p1", QtyInput.int (-1)⟩] =
      SaleResult.errInvalidQty sampleStore :=
  negative_qty_first_line_rejected sampleStore none none "p1" (-1) [] (by norm_num)

/-- C4 counterexample: a request whose only line has quantity `0` — which the
claim says must fail with a validation error and leave stock unchanged — is
accepted (`isOk = true`) and mutates the store (stock 5 becomes 4), because
`item.quantity || 1` coerces the falsy `0` to `1`. -/
theorem zero_qty_not_rejected_counterexample :
    (createSale sampleStore none none [⟨"p1", QtyInput.int 0⟩]).isOk = true ∧
    (createSale sampleStore none none [⟨"p1", QtyInput.int 0⟩]).store ≠ sampleStore := by
  constructor <;>
  norm_num [createSale, processItems, processLine, processLineQ, parseQty, qtyRejected,
    getProduct, putProduct, jsLtQ, jsSubQ, jsMulPrice, jsAdd, orDefault,
    SaleResult.isOk, SaleResult.store, sampleStore,
    List.find?_cons_of_neg, List.find?_cons_of_pos, Product.mk.injEq]

theorem processLine_preserves_nonneg {store s2 : Store} {item : ReqItem} {line : SaleLine}
    (hq : item.quantity ≠ QtyInput.nonNumeric)
    (hnn : NonNegStore store)
    (h : processLine store item = Sum.inr (s2, line)) :
    NonNegStore s2 := by
  obtain ⟨n, hn⟩ := parseQty_some_of_numeric hq
  obtain ⟨prod, hrej, hget, hlt, hs2, _⟩ := processLine_inr h
  rw [hn] at hrej hlt hs2
  have hpos : 0 < n := qtyRejected_false_pos hrej
  have hmem := getProduct_mem hget
  subst hs2
  intro p hp
  rcases mem_putProduct hp with rfl | hp
  · refine ⟨(hnn prod hmem).1, ?_⟩
    intro s hs
    cases hstock : prod.stock with
    | none =>
      rw [hstock] at hs
      simp [jsSubQ] at hs
    | some s0 =>
      rw [hstock] at hs hlt
      simp only [jsSubQ] at hs
      have hge : (n : ℚ) ≤ s0 := by
        simp only [jsLtQ, decide_eq_false_iff_not, not_lt] at hlt
        exact hlt
      have hval : s0 - (n : ℚ) = s := Option.some_inj.mp hs
      rw [← hval]
      have hn0 : (0 : ℚ) < (n : ℚ) := by exact_mod_cast hpos
      linarith
  · exact hnn p hp

theorem processItems_preserves_nonneg :
    ∀ (items : List ReqItem) (store : Store) (acc : List SaleLine) (tot : Option ℚ),
      (∀ it ∈ items, it.quantity ≠ QtyInput.nonNumeric) →
      NonNegStore store →
      NonNegStore (loopStore (processItems store items acc tot)) := by
  intro items
  induction items with
  | nil =>
    intro store acc tot _ hnn
    simpa [processItems, loopStore] using hnn
  | cons it items ih =>
    intro store acc tot hq hnn
    simp only [processItems]
    cases hpl : processLine store it with
    | inl e => simpa [loopStore] using hnn
    | inr pr =>
      obtain ⟨s2, line⟩ := pr
      have hnn2 := processLine_preserves_nonneg (hq it (by simp)) hnn hpl
      exact ih s2 _ _ (fun i hi => hq i (by simp [hi])) hnn2

/-- C5 (amended): product creation via `sanitizeProductInput` establishes
`price ≥ 0 ∧ stock ≥ 0`, and `POST /api/sales` preserves non-negativity of
prices and of every present non-`NaN` stock whenever no line quantity is
non-numeric; but `PUT /api/products/:id` performs no range validation and can
persist a negative stock or price (see the counterexample). -/
theorem invariant_nonneg_create_and_sale :
    (∀ (name desc : String) (pv : Option ℚ) (sv : Option ℤ) (out : ProductFields),
        sanitizeProductInput name desc pv sv = Except.ok out →
        0 ≤ out.price ∧ 0 ≤ out.stock) ∧
    (∀ (store : Store) (cid cname : Option String) (items : List ReqItem),
        (∀ it ∈ items, it.quantity ≠ QtyInput.nonNumeric) →
        NonNegStore store →
        NonNegStore (createSale store cid cname items).store) := by
  constructor
  · intro name desc pv sv out h
    by_cases hname : jsTrim name = ""
    · simp [sanitizeProductInput, hname] at h
    · cases pv with
      | none => simp [sanitizeProductInput, hname] at h
      | some p =>
        by_cases hp : p < 0
        · simp [sanitizeProductInput, hname, hp] at h
        · cases sv with
          | none => simp [sanitizeProductInput, hname, hp] at h
          | some s =>
            by_cases hs : s < 0
            · simp [sanitizeProductInput, hname, hp, hs] at h
            · rw [sanitizeProductInput, if_neg hname] at h
              rw [if_neg hp, if_neg hs] at h
              cases h
              exact ⟨le_of_not_lt hp, le_of_not_lt hs⟩
  · intro store cid cname items hq hnn
    rw [createSale]
    by_cases hne : items.isEmpty
    · rw [if_pos (by simp [hne])]
      simpa [SaleResult.store] using hnn
    · rw [if_neg (by simp [hne])]
      have hloop := processItems_preserves_nonneg items store [] (some 0) hq hnn
      cases hrun : processItems store items [] (some 0) with
      | inl pr =>
        obtain ⟨e, s⟩ := pr
        rw [hrun] at hloop
        cases e <;> simpa [loopStore, errOf, SaleResult.store] using hloop
      | inr tr =>
        obtain ⟨s, lines, total⟩ := tr
        rw [hrun] at hloop
        simpa [loopStore, SaleResult.store] using hloop

/-- Witness for C5 (amended): sanitizing name `Uno`, price 10 and stock 5
yields non-negative validated fields. -/
theorem invariant_nonneg_witness :
    (0 : ℚ) ≤ (10 : ℚ) ∧ (0 : ℤ) ≤ (5 : ℤ) :=
  invariant_nonneg_create_and_sale.1 "Uno" "" (some 10) (some 5)
    ⟨"Uno", "", 10, 5⟩
    (by rw [sanitizeProductInput, show jsTrim "Uno" = "Uno" from by decide,
        show jsTrim "" = "" from by decide, if_neg (by decide)]
        norm_num)

/-- C5 counterexample: `PUT /api/products/:id` with body `stock = "-5"`
(`parseInt` gives `-5`) persists stock `-5 < 0` on a product that satisfied
the invariant, so the invariant is NOT preserved by every operation of the
interface. -/
theorem update_negative_stock_counterexample :
    (updateProduct ⟨"p1", "Uno", "", 10, some 5, none⟩ none none none
        (some (-5))).stock = some ((-5 : ℤ) : ℚ) ∧
    ¬ (0 : ℚ) ≤ ((-5 : ℤ) : ℚ) := by
  constructor
  · rfl
  · norm_num

/-- C6: a login with an email that matches no user and a login with a known
email but a failing password comparison produce the same response — status
400 with message `Credenciales inválidas` — so the two failure causes are
indistinguishable to the caller. -/
theorem login_indistinguishable
    (verify : String → String → Bool) (users : Users)
    (e1 p1 e2 p2 : String) (u : User)
    (h1 : findUserByEmail users e1 = none)
    (h2 : findUserByEmail users e2 = some u)
    (h3 : verify p2 u.passwordHash = false) :
    login verify users e1 p1 = login verify users e2 p2 ∧
    login verify users e1 p1 = LoginResult.err 400 "Credenciales inválidas" := by
  constructor <;> simp [login, h1, h2, h3]

/-- Witness for C6: with a one-user store and a comparator that rejects the
supplied password, the unknown-email response equals the wrong-password
response. -/
theorem login_indistinguishable_witness :
    login (fun _ _ => false) [sampleUser] "x@example.com" "pw1" =
      login (fun _ _ => false) [sampleUser] "ana@example.com" "pw2" :=
  (login_indistinguishable (fun _ _ => false) [sampleUser]
    "x@example.com" "pw1" "ana@example.com" "pw2" sampleUser
    (by decide) (by decide) rfl).1

/-! ## Helper lemmas about the users store -/

theorem findUserByEmail_mem {users : Users} {email : String} {u : User}
    (h : findUserByEmail users email = some u) : u ∈ users :=
  List.mem_of_find?_eq_some h

theorem findUserByEmail_email {users : Users} {email : String} {u : User}
    (h : findUserByEmail users email = some u) : u.email = email := by
  have h2 := List.find?_some h
  simpa using h2

theorem putUser_ids (users : Users) (u : User) :
    (putUser users u).map (fun v => v.id) = users.map (fun v => v.id) := by
  induction users with
  | nil => rfl
  | cons v rest ih =>
    simp only [putUser, List.map] at ih ⊢
    by_cases hv : v.id = u.id
    · rw [if_pos (by simp [hv])]
      exact congrArg₂ List.cons hv.symm ih
    · rw [if_neg (by simp [hv])]
      exact congrArg (List.cons v.id) ih

theorem pairwise_ids_putUser {users : Users} {u : User}
    (h : users.Pairwise fun a b => a.id ≠ b.id) :
    (putUser users u).Pairwise fun a b => a.id ≠ b.id := by
  have h2 : (users.map fun v => v.id).Pairwise (fun a b => a ≠ b) :=
    List.pairwise_map.mpr h
  have h3 : ((putUser users u).map fun v => v.id).Pairwise (fun a b => a ≠ b) := by
    rw [putUser_ids]
    exact h2
  exact List.pairwise_map.mp h3

theorem findUserByEmail_putUser {users : Users} {email : String} {u u2 : User}
    (hpair : users.Pairwise fun a b => a.id ≠ b.id)
    (hfind : findUserByEmail users email = some u)
    (hid : u2.id = u.id) (hemail : u2.email = u.email) :
    findUserByEmail (putUser users u2) email = some u2 := by
  have humail : u.email = email := findUserByEmail_email hfind
  induction users with
  | nil => simp [findUserByEmail] at hfind
  | cons v rest ih =>
    rw [List.pairwise_cons] at hpair
    obtain ⟨hv, hrest⟩ := hpair
    by_cases hve : v.email = email
    · have hhead : findUserByEmail (v :: rest) email = some v :=
        List.find?_cons_of_pos _ (by simp [hve])
      rw [hhead] at hfind
      obtain rfl : v = u := Option.some_inj.mp hfind
      have hput : putUser (v :: rest) u2 = u2 :: putUser rest u2 := by
        simp only [putUser, List.map]
        rw [if_pos (by simp [hid])]
      rw [hput]
      exact List.find?_cons_of_pos _ (by simp [hemail, humail])
    · have hstep : findUserByEmail (v :: rest) email = findUserByEmail rest email :=
        List.find?_cons_of_neg _ (by simp [hve])
      rw [hstep] at hfind
      have humem : u ∈ rest := findUserByEmail_mem hfind
      have hvne : ¬ (v.id = u2.id) := by
        rw [hid]
        exact hv u humem
      have hput : putUser (v :: rest) u2 = v :: putUser rest u2 := by
        simp only [putUser, List.map]
        rw [if_neg (by simp [hvne])]
      rw [hput]
      have htail : findUserByEmail (v :: putUser rest u2) email =
          findUserByEmail (putUser rest u2) email :=
        List.find?_cons_of_neg _ (by simp [hve])
      rw [htail]
      exact ih hrest hfind

theorem withResetToken_resetToken (u : User) (tk : String) (e : ℤ) :
    (withResetToken u tk e).resetToken = some tk := rfl

theorem withResetToken_resetExpires (u : User) (tk : String) (e : ℤ) :
    (withResetToken u tk e).resetExpires = some e := rfl

theorem withNewPassword_resetToken (u : User) (h : String) :
    (withNewPassword u h).resetToken = none := rfl

/-- C7: after `POST /api/auth/request-reset` issues a token at time `t0`
(stored with expiry `t0 + 3600000` ms, i.e. one hour), consuming it with
`POST /api/auth/reset-password` at any time `t1 ≤ t0 + 3600000` succeeds;
consuming it a second time on the resulting store is rejected as
`Token inválido` (the successful use deleted the stored token), and consuming
it at any time `t2 > t0 + 3600000` is rejected as `Token expirado`. -/
theorem reset_token_single_use_and_expiry
    (hash hash2 : String → String) (users : Users) (u : User)
    (email tk pw pw2 : String) (t0 t1 t1b t2 : ℤ)
    (hpair : users.Pairwise fun a b => a.id ≠ b.id)
    (hfind : findUserByEmail users email = some u)
    (hemail : email ≠ "") (htk : tk ≠ "") (hpw : pw ≠ "") (hpw2 : pw2 ≠ "")
    (ht0 : 0 ≤ t0) (ht1 : t1 ≤ t0 + 3600000) (ht2 : t0 + 3600000 < t2) :
    (resetPassword hash t1 (requestReset tk t0 users email).2 email tk pw).1 =
      ResetResult.ok ∧
    (resetPassword hash2 t1b
        (resetPassword hash t1 (requestReset tk t0 users email).2 email tk pw).2
        email tk pw2).1 = ResetResult.errInvalidToken ∧
    (resetPassword hash t2 (requestReset tk t0 users email).2 email tk pw).1 =
      ResetResult.errExpired := by
  have hreq : (requestReset tk t0 users email).2 =
      putUser users (withResetToken u tk (t0 + 3600000)) := by
    simp [requestReset, hemail, hfind]
  have hfind1 : findUserByEmail (putUser users (withResetToken u tk (t0 + 3600000)))
      email = some (withResetToken u tk (t0 + 3600000)) :=
    findUserByEmail_putUser hpair hfind rfl rfl
  have hpair1 : (putUser users (withResetToken u tk (t0 + 3600000))).Pairwise
      (fun a b => a.id ≠ b.id) :=
    pairwise_ids_putUser hpair
  have hmiss1 : ¬ (email = "" ∨ tk = "" ∨ pw = "") := by simp [hemail, htk, hpw]
  have hmiss2 : ¬ (email = "" ∨ tk = "" ∨ pw2 = "") := by simp [hemail, htk, hpw2]
  have htok : ¬ (tk = "" ∨ tk ≠ tk) := by simp [htk]
  have hlive : ¬ (t0 + 3600000 = 0 ∨ t1 > t0 + 3600000) := by omega
  have hdead : (t0 + 3600000 = 0 ∨ t2 > t0 + 3600000) := Or.inr (by omega)
  have hcons1 : resetPassword hash t1
      (putUser users (withResetToken u tk (t0 + 3600000))) email tk pw =
      (ResetResult.ok,
       putUser (putUser users (withResetToken u tk (t0 + 3600000)))
         (withNewPassword (withResetToken u tk (t0 + 3600000)) (hash pw))) := by
    simp [resetPassword, hmiss1, hemail, htk, hpw, hfind1, htok, hlive,
      withResetToken_resetToken, withResetToken_resetExpires]
  have hfind2 : findUserByEmail
      (putUser (putUser users (withResetToken u tk (t0 + 3600000)))
        (withNewPassword (withResetToken u tk (t0 + 3600000)) (hash pw))) email =
      some (withNewPassword (withResetToken u tk (t0 + 3600000)) (hash pw)) :=
    findUserByEmail_putUser hpair1 hfind1 rfl rfl
  refine ⟨?_, ?_, ?_⟩
  · rw [hreq, hcons1]
  · rw [hreq, hcons1]
    simp [resetPassword, hmiss2, hemail, htk, hpw2, hfind2, withNewPassword_resetToken]
  · rw [hreq]
    simp [resetPassword, hmiss1, hemail, htk, hpw, hfind1, htok, hdead,
      withResetToken_resetToken, withResetToken_resetExpires]

/-- Witness for C7: a concrete one-user store, token issued at time 0,
consumed successfully at time 50. -/
theorem reset_token_witness :
    (resetPassword (fun _ => "H1") 50
        (requestReset "tok1" 0 [sampleUser] "ana@example.com").2
        "ana@example.com" "tok1" "npw").1 = ResetResult.ok :=
  (reset_token_single_use_and_expiry (fun _ => "H1") (fun _ => "H2")
    [sampleUser] sampleUser "ana@example.com" "tok1" "npw" "npw2"
    0 50 60 3600001
    (by simp) (by decide) (by decide) (by decide) (by decide) (by decide)
    (by norm_num) (by norm_num) (by norm_num)).1

/-- C8 (amended): for every accepted sale request in which the customer
reference and customer name are absent, the persisted sale has `customerId`
equal to `guest` and denormalized customer display name `Cliente Anónimo`
(the default in the source, not `Guest`). -/
theorem guest_customer_defaults
    (store : Store) (items : List ReqItem) (sale : SaleDoc) (s2 : Store)
    (hok : createSale store none none items = SaleResult.ok sale s2) :
    sale.customerId = "guest" ∧ sale.customerName = "Cliente Anónimo" := by
  rw [createSale] at hok
  by_cases hne : items.isEmpty
  · simp [hne] at hok
  · rw [if_neg (by simp [hne])] at hok
    cases hrun : processItems store items [] (some 0) with
    | inl pr =>
      obtain ⟨e, s⟩ := pr
      rw [hrun] at hok
      cases e <;> simp [errOf] at hok
    | inr tr =>
      obtain ⟨s, lines, total⟩ := tr
      rw [hrun] at hok
      cases hok
      exact ⟨rfl, rfl⟩

/-- Witness for C8 (amended): the concrete guest sale of 2 units of `p1`. -/
theorem guest_customer_defaults_witness :
    (⟨"guest", "Cliente Anónimo", [⟨"p1", "Uno", some 2, 10, some 20⟩],
        some 20⟩ : SaleDoc).customerId = "guest" ∧
    (⟨"guest", "Cliente Anónimo", [⟨"p1", "Uno", some 2, 10, some 20⟩],
        some 20⟩ : SaleDoc).customerName = "Cliente Anónimo" :=
  guest_customer_defaults sampleStore [⟨"p1", QtyInput.int 2⟩]
    ⟨"guest", "Cliente Anónimo", [⟨"p1", "Uno", some 2, 10, some 20⟩], some 20⟩
    sampleStoreAfterP1
    (by norm_num [createSale, processItems, processLine, processLineQ, parseQty,
      qtyRejected, getProduct, putProduct, jsLtQ, jsSubQ, jsMulPrice, jsAdd,
      orDefault, sampleStore, sampleStoreAfterP1,
      List.find?_cons_of_neg, List.find?_cons_of_pos])

/-- C8 counterexample: with the customer fields absent, the persisted
denormalized customer name is `Cliente Anónimo`, which is not `Guest` as the
claim states. -/
theorem guest_name_counterexample :
    createSale sampleStore none none [⟨"p1", QtyInput.int 2⟩] =
      SaleResult.ok
        ⟨"guest", "Cliente Anónimo", [⟨"p1", "Uno", some 2, 10, some 20⟩], some 20⟩
        sampleStoreAfterP1 ∧
    "Cliente Anónimo" ≠ "Guest" := by
  constructor
  · norm_num [createSale, processItems, processLine, processLineQ, parseQty,
      qtyRejected, getProduct, putProduct, jsLtQ, jsSubQ, jsMulPrice, jsAdd,
      orDefault, sampleStore, sampleStoreAfterP1,
      List.find?_cons_of_neg, List.find?_cons_of_pos]
  · decide

/-- C9: rendering the invoice of a sale whose line references a product that
has vanished from the products collection still succeeds: the line is
rendered (it appears in the invoice body), its printed name is the
denormalized `productName` captured at sale time, and it simply carries no
image (the failed `productsDb.get` is swallowed by the inner try/catch). -/
theorem invoice_renders_vanished_product
    (store : Store) (sale : SaleDoc) (item : SaleLine)
    (hmem : item ∈ sale.items)
    (hgone : getProduct store item.productId = none) :
    renderInvoiceLine store item ∈ renderInvoice store sale ∧
    (renderInvoiceLine store item).name = item.productName ∧
    (renderInvoiceLine store item).hasImage = false := by
  refine ⟨List.mem_map_of_mem _ hmem, rfl, ?_⟩
  simp [renderInvoiceLine, hgone]

/-- Witness for C9: the historical sale line for the deleted product `pGone`
is still rendered, under its denormalized name. -/
theorem invoice_renders_vanished_product_witness :
    (renderInvoiceLine sampleStore ⟨"pGone", "Descontinuado", some 2, 7, some 14⟩).name =
      ("Descontinuado" : String) :=
  (invoice_renders_vanished_product sampleStore sampleSaleVanished
    ⟨"pGone", "Descontinuado", some 2, 7, some 14⟩
    (by simp [sampleSaleVanished]) (by decide)).2.1

theorem processLine_undef_eq_one (pid : String) (st : Store) :
    processLine st ⟨pid, QtyInput.undef⟩ = processLine st ⟨pid, QtyInput.int 1⟩ := by
  simp [processLine, parseQty]

theorem processItems_congr_line {a b : ReqItem}
    (hab : ∀ st : Store, processLine st a = processLine st b) (suf : List ReqItem) :
    ∀ (pre : List ReqItem) (store : Store) (acc : List SaleLine) (tot : Option ℚ),
      processItems store (pre ++ a :: suf) acc tot =
        processItems store (pre ++ b :: suf) acc tot := by
  intro pre
  induction pre with
  | nil =>
    intro store acc tot
    simp only [List.nil_append, processItems, hab store]
  | cons i pre ih =>
    intro store acc tot
    simp only [List.cons_append, processItems]
    cases processLine store i with
    | inl e => rfl
    | inr pr => exact ih pr.1 _ _

/-- C10: a sale request line whose `quantity` field is absent is processed
exactly as if the quantity were `1` — `parseInt(item.quantity || 1)` turns
`undefined` into `1` — wherever the line occurs in the request; in particular
the line is not rejected as invalid. -/
theorem absent_quantity_treated_as_one
    (store : Store) (cid cname : Option String)
    (pre suf : List ReqItem) (pid : String) :
    createSale store cid cname (pre ++ ⟨pid, QtyInput.undef⟩ :: suf) =
      createSale store cid cname (pre ++ ⟨pid, QtyInput.int 1⟩ :: suf) := by
  have hemp1 : (pre ++ (⟨pid, QtyInput.undef⟩ : ReqItem) :: suf).isEmpty = false := by
    cases pre <;> rfl
  have hemp2 : (pre ++ (⟨pid, QtyInput.int 1⟩ : ReqItem) :: suf).isEmpty = false := by
    cases pre <;> rfl
  rw [createSale, createSale, if_neg (by simp [hemp1]), if_neg (by simp [hemp2])]
  rw [processItems_congr_line (fun st => processLine_undef_eq_one pid st) suf pre
    store [] (some 0)]

end PosBackend
